import Mathlib

/-!
Verification of the psc pseudocode interpreter (lexer, parser, evaluator)
against its natural-language specification.  The Rust sources are embedded
shallowly: the lexer and parser become functions over `List Char` /
`List LexerToken`, the tree-walking evaluator becomes a fuel-indexed
function over an explicit state (variables, remaining stdin lines,
accumulated output lines).  Rust `f64` values are kept as the free algebra
of the operations the program performs on them (`F64` below): no claim
depends on IEEE-754 arithmetic identities, only on which operation tree a
result is, which is exactly what the code's structure determines.
-/

namespace Psc

/-- Runtime floats.  The Rust code stores `f64`; here a float is the tree of
operations that produced it (conversion from an `i64`, the text of a float
literal, and the arithmetic the evaluator applies).  This is faithful for
every claim in scope: none of them observes an IEEE-754 identity. -/
inductive F64 : Type
  /-- `x as f64` applied to an `i64`. -/
  | ofInt : Int → F64
  /-- a float literal, kept as its source text (`buf.parse::<f64>()`). -/
  | lit : String → F64
  | add : F64 → F64 → F64
  | sub : F64 → F64 → F64
  | mul : F64 → F64 → F64
  | div : F64 → F64 → F64
  /-- Rust `%` on floats. -/
  | rem : F64 → F64 → F64
  | floor : F64 → F64
deriving DecidableEq, Repr

/-- Rust `f64` ordering is not modelled (no claim observes a float
comparison); the three comparison helpers below are fixed arbitrarily. -/
def F64.fgt (_ _ : F64) : Bool := false

/-- See `F64.fgt`: float equality is modelled as structural equality of the
operation trees; no claim observes it. -/
def F64.feq (a b : F64) : Bool := a = b

/-- See `F64.fgt`. -/
def F64.flt (_ _ : F64) : Bool := false

/-- `eval.rs`: `enum PscObject`. -/
inductive PscObject : Type
  | IntT : Int → PscObject
  | FloatT : F64 → PscObject
  | StringT : String → PscObject
  | BoolT : Bool → PscObject
deriving DecidableEq, Repr

/-- `lex.rs`: `enum Keyword`. -/
inductive Keyword : Type
  | Loop | While | From | To | Until | If | Then | Else | End | Input | Output
deriving DecidableEq, Repr

/-- `lex.rs`: `enum Punctuation`. -/
inductive Punctuation : Type
  | Plus | Minus | Mul | Div | FloorDiv | Mod | Assign | Equals | GT | LT | GE | LE
deriving DecidableEq, Repr

/-- `lex.rs`: `Punctuation::precedence`. -/
def Punctuation.precedence : Punctuation → Nat
  | .Assign => 0
  | .Equals => 1
  | .GT => 1
  | .LT => 1
  | .GE => 1
  | .LE => 1
  | .Plus => 2
  | .Minus => 2
  | .Mul => 3
  | .Div => 3
  | .FloorDiv => 3
  | .Mod => 3

/-- `lex.rs`: `enum LexerToken`. -/
inductive LexerToken : Type
  | Keyword : Keyword → LexerToken
  | Punctuation : Punctuation → LexerToken
  | IntLit : Int → LexerToken
  | FloatLit : F64 → LexerToken
  | BoolLit : Bool → LexerToken
  | StrLit : String → LexerToken
  | Identifier : String → LexerToken
deriving DecidableEq, Repr

/-- `lex.rs`: `LexerToken::from_identifier` (the keyword table, applied to the
lowercased scanned word). -/
def fromIdentifier : String → Option LexerToken
  | "loop" => some (.Keyword .Loop)
  | "while" => some (.Keyword .While)
  | "from" => some (.Keyword .From)
  | "to" => some (.Keyword .To)
  | "until" => some (.Keyword .Until)
  | "if" => some (.Keyword .If)
  | "then" => some (.Keyword .Then)
  | "else" => some (.Keyword .Else)
  | "end" => some (.Keyword .End)
  | "input" => some (.Keyword .Input)
  | "output" => some (.Keyword .Output)
  | "mod" => some (.Punctuation .Mod)
  | "div" => some (.Punctuation .FloorDiv)
  | "true" => some (.BoolLit true)
  | "false" => some (.BoolLit false)
  | _ => none

/-- Lowercase a string (`buf.to_lowercase()`; the scanned buffer is ASCII
letters and underscores only, for which Rust's Unicode lowercasing agrees
with per-character ASCII lowercasing). -/
def toLowerStr (s : String) : String := ⟨s.data.map Char.toLower⟩

/-- Read a nonempty all-digit character list as a natural number. -/
def parseDigits (cs : List Char) : Option Nat :=
  if cs.isEmpty then none
  else cs.foldl
    (fun acc? c => acc?.bind fun acc =>
      if c.isDigit then some (acc * 10 + (c.toNat - 48)) else none)
    (some 0)

/-- The integer grammar of Rust `FromStr for i64`: an optional sign followed
by at least one digit. -/
def parseIntRust (s : String) : Option Int :=
  match s.data with
  | '-' :: rest => (parseDigits rest).map (fun n => -(n : Int))
  | '+' :: rest => (parseDigits rest).map (fun n => (n : Int))
  | cs => (parseDigits cs).map (fun n => (n : Int))

/-- `buf.parse::<i64>()`: the integer grammar above, failing when the value
does not fit in an `i64`. -/
def parseI64 (s : String) : Option Int :=
  match parseIntRust s with
  | some n => if -(2 ^ 63) ≤ n ∧ n < 2 ^ 63 then some n else none
  | none => none

/-- `buf.parse::<f64>()` on a scanned numeric literal.  The scanner only
produces nonempty digit strings with a single dot, on which Rust's parse
always succeeds, so the literal is kept verbatim. -/
def parseF64Lit (s : String) : Option F64 := some (.lit s)

/-- The numeric-literal scanning loop of `lex`
(`while let Some(c) = it.next()`): digits and at most one dot are
accumulated; a second dot is "Malformed float literal"; any other character
— including the terminator — is consumed by `it.next()` and dropped. -/
def scanNum : List Char → String → Bool → Except String (String × Bool × List Char)
  | [], buf, isFloat => .ok (buf, isFloat, [])
  | c :: rest, buf, isFloat =>
    if c.isDigit then scanNum rest (buf.push c) isFloat
    else if c = '.' then
      if isFloat then .error "Malformed float literal"
      else scanNum rest (buf.push '.') true
    else .ok (buf, isFloat, rest)

/-- The string-literal scanning loop of `lex`: characters are taken verbatim
until a closing quote or the end of input; the returned list is what remains
after the loop. -/
def scanStr : List Char → String → String × List Char
  | [], buf => (buf, [])
  | c :: rest, buf => if c = '"' then (buf, rest) else scanStr rest (buf.push c)

/-- The identifier scanning loop of `lex`: ASCII letters and underscores are
accumulated; the terminating character is consumed by `it.next()` and
dropped. -/
def scanIdent : List Char → String → String × List Char
  | [], buf => (buf, [])
  | c :: rest, buf =>
    if c.isAlpha then scanIdent rest (buf.push c)
    else if c = '_' then scanIdent rest (buf.push '_')
    else (buf, rest)

/-- Rust `char::is_ascii_punctuation`. -/
def isAsciiPunct (c : Char) : Bool :=
  (33 ≤ c.toNat && c.toNat ≤ 47) || (58 ≤ c.toNat && c.toNat ≤ 64) ||
  (91 ≤ c.toNat && c.toNat ≤ 96) || (123 ≤ c.toNat && c.toNat ≤ 126)

/-- The lexer's result: `none` is the artificial out-of-fuel outcome of the
embedding (shown unreachable for the fuel `lex` supplies by
`lexLoop_ne_none`), `some` carries the source's `Result`. -/
abbrev LexRes := Option (Except String (List LexerToken))

/-- Prepend a freshly produced token to the result of lexing the remaining
characters (`ret.push(tok)` in the source's accumulating loop). -/
def consTok (t : LexerToken) : LexRes → LexRes
  | none => none
  | some (.error e) => some (.error e)
  | some (.ok ts) => some (.ok (t :: ts))

/-- The main loop of `lex.rs::lex`, over the remaining characters, with a
fuel parameter that makes the recursion structural (the loop consumes at
least one character per iteration, so fuel `length + 1` always suffices; see
`lexLoop_ne_none`).  In the numeric and identifier branches the first
iteration of the source's scanning loop is inlined (`it.next()` re-reads the
peeked character `c`, which is a digit resp. a letter, so it is pushed onto
the buffer and scanning continues on `cs`).  Error messages are those of
the source, except that the surrounding single quotes of the "Unknow char"
message are dropped (no claim mentions that message). -/
def lexLoop : Nat → List Char → LexRes
  | 0, _ => none
  | _ + 1, [] => some (.ok [])
  | fuel + 1, c :: cs =>
    if c = ' ' ∨ c = '\n' ∨ c = '\t' then lexLoop fuel cs
    else if c.isDigit then
      match scanNum cs ("".push c) false with
      | .error e => some (.error e)
      | .ok (buf, isFloat, rest) =>
        if isFloat then
          match parseF64Lit buf with
          | some x => consTok (.FloatLit x) (lexLoop fuel rest)
          | none => some (.error "Failed to parse float literal")
        else
          match parseI64 buf with
          | some n => consTok (.IntLit n) (lexLoop fuel rest)
          | none => some (.error "Failed to parse int literal")
    else if c = '"' then
      match scanStr cs "" with
      | (buf, rest) =>
        if rest.isEmpty then some (.error "Failed to parse string literal")
        else consTok (.StrLit buf) (lexLoop fuel rest)
    else if c.isAlpha then
      match scanIdent cs ("".push c) with
      | (buf, rest) =>
        match fromIdentifier (toLowerStr buf) with
        | some tok => consTok tok (lexLoop fuel rest)
        | none =>
          if buf.data.all (fun ch => ch.isUpper || ch = '_') then
            consTok (.Identifier buf) (lexLoop fuel rest)
          else some (.error ("Invalid identifier: " ++ buf))
    else if isAsciiPunct c then
      match c, cs with
      | '+', rest => consTok (.Punctuation .Plus) (lexLoop fuel rest)
      | '-', rest => consTok (.Punctuation .Minus) (lexLoop fuel rest)
      | '*', rest => consTok (.Punctuation .Mul) (lexLoop fuel rest)
      | '/', rest => consTok (.Punctuation .Div) (lexLoop fuel rest)
      | '>', '=' :: rest => consTok (.Punctuation .GE) (lexLoop fuel rest)
      | '<', '=' :: rest => consTok (.Punctuation .LE) (lexLoop fuel rest)
      | '=', '=' :: rest => consTok (.Punctuation .Equals) (lexLoop fuel rest)
      | '<', rest => consTok (.Punctuation .LT) (lexLoop fuel rest)
      | '>', rest => consTok (.Punctuation .GT) (lexLoop fuel rest)
      | '=', rest => consTok (.Punctuation .Assign) (lexLoop fuel rest)
      | c, _ => some (.error ("Invalid punctuation: " ++ String.singleton c))
    else some (.error ("Unknow char: " ++ String.singleton c))

/-- `lex.rs::lex` on a whole source string (fuel `length + 1` suffices by
`lexLoop_ne_none` below). -/
def lex (prog : String) : LexRes := lexLoop (prog.length + 1) prog.data


/-- `eval.rs`: `enum Expr`, with the boxed `BinOp { left, right, op }`
struct flattened into the constructor. -/
inductive Expr : Type
  | IntLit : Int → Expr
  | FloatLit : F64 → Expr
  | BoolLit : Bool → Expr
  | StrLit : String → Expr
  | Ident : String → Expr
  | BinOp : Expr → Expr → Punctuation → Expr
deriving DecidableEq, Repr

/-- `eval.rs`: `enum Stmt`, with the payload structs `Assign`, `Input`,
`Output`, `If`, `While`, `Until`, `For` inlined.  The `For` field `end` is
renamed `stop` (`end` is reserved in Lean). -/
inductive Stmt : Type
  | Assign : String → Expr → Stmt
  | Input : String → Stmt
  | Output : Expr → Stmt
  | If : List (Expr × List Stmt) → Stmt
  | While : Expr → List Stmt → Stmt
  | Until : Expr → List Stmt → Stmt
  | For : String → Expr → Expr → List Stmt → Stmt

/-- Outcome of a parsing function: a parsed value with the unconsumed
tokens, a structural parse error, a Rust panic (`unreachable!()` or
`todo!()` in the source), or the embedding's artificial out-of-fuel
outcome (the theorems below always supply ample fuel). -/
inductive PRes (α : Type) : Type
  | ok : α → List LexerToken → PRes α
  | err : String → PRes α
  | panic : PRes α
  | timeout : PRes α

/-- `parse.rs`: `parse_atom`. -/
def parseAtom : List LexerToken → PRes Expr
  | .IntLit x :: rest => .ok (.IntLit x) rest
  | .FloatLit x :: rest => .ok (.FloatLit x) rest
  | .BoolLit x :: rest => .ok (.BoolLit x) rest
  | .StrLit x :: rest => .ok (.StrLit x) rest
  | .Identifier x :: rest => .ok (.Ident x) rest
  | _ => .err "Failed to parse atom"

/-- `parse.rs`: `parse_bin_op` (precedence climbing).  A non-`Assign`
punctuation token whose precedence is at least the current minimum is
consumed, the right-hand side is parsed at that operator's precedence, and
folding continues at the original minimum. -/
def parseBinOp : Nat → List LexerToken → Expr → Nat → PRes Expr
  | 0, _, _, _ => .timeout
  | fuel + 1, toks, left, minPrec =>
    match toks with
    | .Punctuation op :: rest =>
      if op = .Assign then .ok left toks
      else if minPrec ≤ op.precedence then
        match parseAtom rest with
        | .ok atom rest2 =>
          (match parseBinOp fuel rest2 atom op.precedence with
           | .ok right rest3 => parseBinOp fuel rest3 (.BinOp left right op) minPrec
           | o => o)
        | .err e => .err e
        | .panic => .panic
        | .timeout => .timeout
      else .ok left toks
    | _ => .ok left toks

/-- The expression entry point used by every statement production:
`parse_atom` followed by `parse_bin_op(tokens, left, 0)`. -/
def parseExpr (fuel : Nat) (toks : List LexerToken) : PRes Expr :=
  match parseAtom toks with
  | .ok left rest => parseBinOp fuel rest left 0
  | o => o

/-- `branches[branches.len() - 1].1.push(stmt)`: append a statement to the
body of the last branch. -/
def appendLast (branches : List (Expr × List Stmt)) (st : Stmt) :
    List (Expr × List Stmt) :=
  match branches with
  | [] => []
  | [(c, body)] => [(c, body ++ [st])]
  | b :: rest => b :: appendLast rest st

mutual

/-- `parse.rs`: `parse_stmt`.  The `unreachable!()` reached when an
identifier is not followed by `=`, and the `todo!()` reached when `LOOP` is
followed by none of `WHILE`/`UNTIL`/an identifier, are the `.panic`
outcome.  The two error messages that quote a keyword name are written
without the quote characters. -/
def parseStmt : Nat → List LexerToken → PRes Stmt
  | 0, _ => .timeout
  | fuel + 1, toks =>
    match toks with
    | .Identifier ident :: rest =>
      (match rest with
       | .Punctuation .Assign :: rest2 =>
         (match parseExpr fuel rest2 with
          | .ok e rest3 => .ok (.Assign ident e) rest3
          | .err e => .err e
          | .panic => .panic
          | .timeout => .timeout)
       | _ => .panic)
    | .Keyword .Input :: rest =>
      (match rest with
       | .Identifier ident :: rest2 => .ok (.Input ident) rest2
       | _ => .err "Failed to parse input stmt")
    | .Keyword .Output :: rest =>
      (match parseExpr fuel rest with
       | .ok e rest2 => .ok (.Output e) rest2
       | .err e => .err e
       | .panic => .panic
       | .timeout => .timeout)
    | .Keyword .If :: rest =>
      (match parseExpr fuel rest with
       | .ok cond rest2 =>
         (match rest2 with
          | .Keyword .Then :: rest3 => parseIfBranches fuel [(cond, [])] rest3
          | _ => .err "Failed to parse if stmt")
       | .err e => .err e
       | .panic => .panic
       | .timeout => .timeout)
    | .Keyword .Loop :: rest =>
      (match rest with
       | .Keyword .While :: rest2 =>
         (match parseExpr fuel rest2 with
          | .ok cond rest3 =>
            (match parseBody fuel rest3 with
             | .ok stmts rest4 =>
               (match rest4 with
                | _ :: .Keyword .Loop :: rest5 => .ok (.While cond stmts) rest5
                | _ => .err "Failed to parse while stmt")
             | .err e => .err e
             | .panic => .panic
             | .timeout => .timeout)
          | .err e => .err e
          | .panic => .panic
          | .timeout => .timeout)
       | .Keyword .Until :: rest2 =>
         (match parseExpr fuel rest2 with
          | .ok cond rest3 =>
            (match parseBody fuel rest3 with
             | .ok stmts rest4 =>
               (match rest4 with
                | _ :: .Keyword .Loop :: rest5 => .ok (.Until cond stmts) rest5
                | _ => .err "Failed to parse while stmt")
             | .err e => .err e
             | .panic => .panic
             | .timeout => .timeout)
          | .err e => .err e
          | .panic => .panic
          | .timeout => .timeout)
       | .Identifier name :: rest2 =>
         (match rest2 with
          | .Keyword .From :: rest3 =>
            (match parseExpr fuel rest3 with
             | .ok startE rest4 =>
               (match rest4 with
                | .Keyword .To :: rest5 =>
                  (match parseExpr fuel rest5 with
                   | .ok stopE rest6 =>
                     (match parseBody fuel rest6 with
                      | .ok stmts rest7 =>
                        (match rest7 with
                         | _ :: .Keyword .Loop :: rest8 =>
                           .ok (.For name startE stopE stmts) rest8
                         | _ => .err "Failed to parse stmt")
                      | .err e => .err e
                      | .panic => .panic
                      | .timeout => .timeout)
                   | .err e => .err e
                   | .panic => .panic
                   | .timeout => .timeout)
                | _ => .err "Failed to parse to in for stmt")
             | .err e => .err e
             | .panic => .panic
             | .timeout => .timeout)
          | _ => .err "Failed to parse from in for stmt")
       | _ => .panic)
    | _ => .err "Failed to parse stmt"
termination_by structural fuel => fuel

/-- `parse.rs`: the branch-accumulating `loop` inside the `IF` arm of
`parse_stmt`.  `ELSE IF` opens a branch with a parsed condition (note: no
`THEN` is consumed after it), a bare `ELSE` opens a branch with condition
literal `true`, `END IF` closes the conditional, and any other token is
parsed as a statement of the current (last) branch. -/
def parseIfBranches : Nat → List (Expr × List Stmt) → List LexerToken → PRes Stmt
  | 0, _, _ => .timeout
  | fuel + 1, branches, toks =>
    match toks with
    | .Keyword .Else :: rest =>
      (match rest with
       | .Keyword .If :: rest2 =>
         (match parseExpr fuel rest2 with
          | .ok cond rest3 => parseIfBranches fuel (branches ++ [(cond, [])]) rest3
          | .err e => .err e
          | .panic => .panic
          | .timeout => .timeout)
       | _ => parseIfBranches fuel (branches ++ [(.BoolLit true, [])]) rest)
    | .Keyword .End :: rest =>
      (match rest with
       | .Keyword .If :: rest2 => .ok (.If branches) rest2
       | _ => .err "Failed to parse if stmt")
    | _ =>
      (match parseStmt fuel toks with
       | .ok st rest => parseIfBranches fuel (appendLast branches st) rest
       | .err e => .err e
       | .panic => .panic
       | .timeout => .timeout)
termination_by structural fuel => fuel

/-- The `while tokens.peek() != Some(&&Keyword::End)` statement-accumulating
loop shared by the three `LOOP` productions; it stops, without consuming,
when the next token is `END` (reaching the end of the stream instead makes
the inner `parse_stmt` fail). -/
def parseBody : Nat → List LexerToken → PRes (List Stmt)
  | 0, _ => .timeout
  | fuel + 1, toks =>
    match toks with
    | .Keyword .End :: _ => .ok [] toks
    | _ =>
      (match parseStmt fuel toks with
       | .ok st rest =>
         (match parseBody fuel rest with
          | .ok stmts rest2 => .ok (st :: stmts) rest2
          | o => o)
       | .err e => .err e
       | .panic => .panic
       | .timeout => .timeout)
termination_by structural fuel => fuel

end

/-- `parse.rs`: `parse` (the top-level statement loop, running until the
token stream is exhausted). -/
def parseProgram : Nat → List LexerToken → PRes (List Stmt)
  | 0, _ => .timeout
  | _ + 1, [] => .ok [] []
  | fuel + 1, toks =>
    match parseStmt fuel toks with
    | .ok st rest =>
      (match parseProgram fuel rest with
       | .ok stmts rest2 => .ok (st :: stmts) rest2
       | o => o)
    | .err e => .err e
    | .panic => .panic
    | .timeout => .timeout

/-- Wrap an integer into the `i64` range: Rust release-mode arithmetic for
`+`, `-`, `*` wraps on overflow (a debug build would panic instead; no
claim exercises an overflowing operation). -/
def wrap64 (n : Int) : Int := (n + 2 ^ 63) % 2 ^ 64 - 2 ^ 63

/-- `HashMap::get` on the variable environment, modelled as an association
list (first match wins; `insertVar` keeps keys unique, so the list order
never matters to lookups). -/
def lookupVar : List (String × PscObject) → String → Option PscObject
  | [], _ => none
  | (k, v) :: rest, name => if k = name then some v else lookupVar rest name

/-- `HashMap::insert` on the variable environment: replace the existing
binding, or append a new one. -/
def insertVar : List (String × PscObject) → String → PscObject →
    List (String × PscObject)
  | [], name, v => [(name, v)]
  | (k, w) :: rest, name, v =>
    if k = name then (k, v) :: rest else (k, w) :: insertVar rest name v

/-- Rendering of an `F64` operation tree.  Rust's `Display` formatting of
`f64` values is not modelled (no claim observes the printed form of a
float); this printer only keeps the rendering total and injective enough
for the embedding. -/
def renderF64 : F64 → String
  | .ofInt n => toString n
  | .lit s => s
  | .add a b => "(" ++ renderF64 a ++ " + " ++ renderF64 b ++ ")"
  | .sub a b => "(" ++ renderF64 a ++ " - " ++ renderF64 b ++ ")"
  | .mul a b => "(" ++ renderF64 a ++ " * " ++ renderF64 b ++ ")"
  | .div a b => "(" ++ renderF64 a ++ " / " ++ renderF64 b ++ ")"
  | .rem a b => "(" ++ renderF64 a ++ " % " ++ renderF64 b ++ ")"
  | .floor a => "floor " ++ renderF64 a

/-- The `println!("{}", x)` form of each value kind (`Stmt::eval`, Output
arm): decimal for integers, raw characters for text, `true`/`false` for
booleans. -/
def render : PscObject → String
  | .IntT x => toString x
  | .FloatT x => renderF64 x
  | .StringT s => s
  | .BoolT b => if b then "true" else "false"

/-- Rust `str::trim` (the scanned buffers only ever carry ASCII whitespace,
where Lean's `Char.isWhitespace` agrees with Rust's trimming). -/
def trimStr (s : String) : String :=
  ⟨((s.data.dropWhile Char.isWhitespace).reverse.dropWhile
      Char.isWhitespace).reverse⟩

/-- Rust `str::parse::<bool>`: exactly `true` or `false`. -/
def parseRustBool (s : String) : Option Bool :=
  if s = "true" then some true else if s = "false" then some false else none

/-- Digits with at most one dot and at least one digit (after an optional
sign): the shape of numeric text accepted below. -/
def isNumericBody : List Char → Bool → Bool → Bool
  | [], _, seenDigit => seenDigit
  | c :: rest, seenDot, seenDigit =>
    if c.isDigit then isNumericBody rest seenDot true
    else if c = '.' && !seenDot then isNumericBody rest true seenDigit
    else false

/-- Rust `str::parse::<f64>` as used to classify an input line.  Only a
simple decimal shape is recognised (Rust additionally accepts exponents and
`inf`/`NaN` spellings, which no claim exercises); what the claims rely on
is that non-numeric text — in particular the empty line — fails. -/
def parseF64Input (s : String) : Option F64 :=
  let cs := match s.data with
    | '-' :: rest => rest
    | '+' :: rest => rest
    | cs => cs
  if isNumericBody cs false false then some (.lit s) else none

/-- The classification ladder of the Input arm of `Stmt::eval`: the trimmed
line as a bool, else an i64, else an f64, else the raw (untrimmed) buffer
as text. -/
def classifyInput (buffer : String) : PscObject :=
  let striped := trimStr buffer
  match parseRustBool striped with
  | some b => .BoolT b
  | none =>
    match parseI64 striped with
    | some n => .IntT n
    | none =>
      match parseF64Input striped with
      | some x => .FloatT x
      | none => .StringT buffer

/-- Outcome of evaluating an expression: a value, a runtime error, or a
Rust panic (the `todo!()`/`unreachable!()` and the overflow/zero panics of
`%`). -/
inductive ExprRes : Type
  | ok : PscObject → ExprRes
  | err : String → ExprRes
  | panic : ExprRes
deriving DecidableEq, Repr

/-- The `(l > r, l == r, l < r)` triple computed by the relational arm of
`Expr::eval`; `none` is the `todo!()` for non-numeric operand pairs. -/
def cmp3 : PscObject → PscObject → Option (Bool × Bool × Bool)
  | .IntT l, .IntT r => some (decide (l > r), decide (l = r), decide (l < r))
  | .FloatT l, .FloatT r => some (F64.fgt l r, F64.feq l r, F64.flt l r)
  | .IntT l, .FloatT r =>
    some (F64.fgt (.ofInt l) r, F64.feq (.ofInt l) r, F64.flt (.ofInt l) r)
  | .FloatT l, .IntT r =>
    some (F64.fgt l (.ofInt r), F64.feq l (.ofInt r), F64.flt l (.ofInt r))
  | _, _ => none

/-- The binary-operator table of `Expr::eval`, applied to two evaluated
values.  Integer `+`/`-`/`*` wrap (release build, see `wrap64`); integer
`%` panics on a zero divisor or on `i64::MIN % -1` and otherwise is Rust's
truncated remainder; the final `_ => todo!()` of the source (reachable only
for `Punctuation::Assign`, which `parse_bin_op` never emits) is `.panic`. -/
def evalBinOp : Punctuation → PscObject → PscObject → ExprRes
  | .Plus, .IntT l, .IntT r => .ok (.IntT (wrap64 (l + r)))
  | .Plus, .FloatT l, .FloatT r => .ok (.FloatT (.add l r))
  | .Plus, .IntT l, .FloatT r => .ok (.FloatT (.add (.ofInt l) r))
  | .Plus, .FloatT l, .IntT r => .ok (.FloatT (.add l (.ofInt r)))
  | .Plus, .StringT l, .StringT r => .ok (.StringT (l ++ r))
  | .Plus, _, _ => .err "Mismatched types"
  | .Minus, .IntT l, .IntT r => .ok (.IntT (wrap64 (l - r)))
  | .Minus, .FloatT l, .FloatT r => .ok (.FloatT (.sub l r))
  | .Minus, .IntT l, .FloatT r => .ok (.FloatT (.sub (.ofInt l) r))
  | .Minus, .FloatT l, .IntT r => .ok (.FloatT (.sub l (.ofInt r)))
  | .Minus, _, _ => .err "Mismatched types"
  | .Mul, .IntT l, .IntT r => .ok (.IntT (wrap64 (l * r)))
  | .Mul, .FloatT l, .FloatT r => .ok (.FloatT (.mul l r))
  | .Mul, .IntT l, .FloatT r => .ok (.FloatT (.mul (.ofInt l) r))
  | .Mul, .FloatT l, .IntT r => .ok (.FloatT (.mul l (.ofInt r)))
  | .Mul, _, _ => .err "Mismatched types"
  | .Div, .IntT l, .IntT r => .ok (.FloatT (.div (.ofInt l) (.ofInt r)))
  | .Div, .FloatT l, .FloatT r => .ok (.FloatT (.div l r))
  | .Div, .IntT l, .FloatT r => .ok (.FloatT (.div (.ofInt l) r))
  | .Div, .FloatT l, .IntT r => .ok (.FloatT (.div l (.ofInt r)))
  | .Div, _, _ => .err "Mismatched types"
  | .FloorDiv, .IntT l, .IntT r =>
    .ok (.FloatT (.floor (.div (.ofInt l) (.ofInt r))))
  | .FloorDiv, .FloatT l, .FloatT r => .ok (.FloatT (.floor (.div l r)))
  | .FloorDiv, .IntT l, .FloatT r => .ok (.FloatT (.floor (.div (.ofInt l) r)))
  | .FloorDiv, .FloatT l, .IntT r => .ok (.FloatT (.floor (.div l (.ofInt r))))
  | .FloorDiv, _, _ => .err "Mismatched types"
  | .Mod, .IntT l, .IntT r =>
    if r = 0 ∨ (l = -(2 ^ 63) ∧ r = -1) then .panic
    else .ok (.IntT (l.tmod r))
  | .Mod, .FloatT l, .FloatT r => .ok (.FloatT (.floor (.rem l r)))
  | .Mod, .IntT l, .FloatT r => .ok (.FloatT (.floor (.rem (.ofInt l) r)))
  | .Mod, .FloatT l, .IntT r => .ok (.FloatT (.floor (.rem l (.ofInt r))))
  | .Mod, _, _ => .err "Mismatched types"
  | .GE, l, r =>
    (match cmp3 l r with
     | some (a, b, _) => .ok (.BoolT (a || b))
     | none => .panic)
  | .LE, l, r =>
    (match cmp3 l r with
     | some (_, b, c) => .ok (.BoolT (c || b))
     | none => .panic)
  | .GT, l, r =>
    (match cmp3 l r with
     | some (a, _, _) => .ok (.BoolT a)
     | none => .panic)
  | .LT, l, r =>
    (match cmp3 l r with
     | some (_, _, c) => .ok (.BoolT c)
     | none => .panic)
  | .Equals, .IntT l, .IntT r => .ok (.BoolT (decide (l = r)))
  | .Equals, .FloatT l, .FloatT r => .ok (.BoolT (F64.feq l r))
  | .Equals, .StringT l, .StringT r => .ok (.BoolT (decide (l = r)))
  | .Equals, .BoolT l, .BoolT r => .ok (.BoolT (decide (l = r)))
  | .Equals, .IntT l, .FloatT r => .ok (.BoolT (F64.feq (.ofInt l) r))
  | .Equals, .FloatT l, .IntT r => .ok (.BoolT (F64.feq l (.ofInt r)))
  | .Equals, _, _ => .err "Mismatched types"
  | .Assign, _, _ => .panic

/-- `eval.rs`: `Expr::eval` (pure: it only reads the environment). -/
def evalExpr : Expr → List (String × PscObject) → ExprRes
  | .IntLit x, _ => .ok (.IntT x)
  | .FloatLit x, _ => .ok (.FloatT x)
  | .StrLit x, _ => .ok (.StringT x)
  | .BoolLit x, _ => .ok (.BoolT x)
  | .Ident x, vars =>
    (match lookupVar vars x with
     | some v => .ok v
     | none => .err ("Unknow identifier: " ++ x))
  | .BinOp l r op, vars =>
    (match evalExpr l vars with
     | .ok lv =>
       (match evalExpr r vars with
        | .ok rv => evalBinOp op lv rv
        | .err e => .err e
        | .panic => .panic)
     | .err e => .err e
     | .panic => .panic)

/-- The evaluator's state: the variable environment, the lines still
readable from standard input (each entry is the exact buffer a
`read_line` call would produce, terminator included), and the lines
printed so far. -/
structure EState : Type where
  vars : List (String × PscObject)
  stdin : List String
  output : List String
deriving DecidableEq, Repr

/-- Outcome of executing statements: the updated state, a runtime error, a
Rust panic, or the embedding's artificial out-of-fuel outcome. -/
inductive EvalRes : Type
  | ok : EState → EvalRes
  | err : String → EvalRes
  | panic : EvalRes
  | timeout : EvalRes
deriving DecidableEq, Repr

/-- The pieces of `Stmt::eval` control flow, joined into one type so the
whole evaluator is a single structurally fuel-recursive function (`exec`):
one statement, a statement sequence, the branch scan of a conditional, the
`loop` of While/Until, and the counting loop from a current index. -/
inductive Job : Type
  | one : Stmt → Job
  | seq : List Stmt → Job
  | branches : List (Expr × List Stmt) → Job
  | whileJ : Expr → List Stmt → Job
  | untilJ : Expr → List Stmt → Job
  | forJ : String → Int → Int → List Stmt → Job

/-- `eval.rs`: `Stmt::eval`, as a fuel-indexed step function over `Job`.
Faithfulness notes, per arm: Input models `read_line` at end of input as
Rust's `Ok(0)` with an untouched (empty) buffer; While/Until re-test the
condition without running the body when it is not a boolean (the source's
`if let` falls through and the `loop` continues); For evaluates start and
stop once, binds the variable to 0, iterates only when both are integers,
and the `unreachable!()` under `get_mut` returning `None` is `.panic`. -/
def exec : Nat → Job → EState → EvalRes
  | 0, _, _ => .timeout
  | fuel + 1, job, st =>
    match job with
    | .one (.Assign name e) =>
      (match evalExpr e st.vars with
       | .ok v => .ok { st with vars := insertVar st.vars name v }
       | .err msg => .err msg
       | .panic => .panic)
    | .one (.Output e) =>
      (match evalExpr e st.vars with
       | .ok v => .ok { st with output := st.output ++ [render v] }
       | .err msg => .err msg
       | .panic => .panic)
    | .one (.Input name) =>
      (match st.stdin with
       | [] => .ok { st with vars := insertVar st.vars name (classifyInput "") }
       | line :: rest =>
         .ok { st with vars := insertVar st.vars name (classifyInput line),
                       stdin := rest })
    | .one (.If bs) => exec fuel (.branches bs) st
    | .one (.While c body) => exec fuel (.whileJ c body) st
    | .one (.Until c body) => exec fuel (.untilJ c body) st
    | .one (.For name startE stopE body) =>
      (match evalExpr startE st.vars with
       | .ok vs =>
         (match evalExpr stopE st.vars with
          | .ok ve =>
            let st1 := { st with vars := insertVar st.vars name (.IntT 0) }
            (match vs, ve with
             | .IntT s, .IntT e => exec fuel (.forJ name s e body) st1
             | _, _ => .ok st1)
          | .err msg => .err msg
          | .panic => .panic)
       | .err msg => .err msg
       | .panic => .panic)
    | .seq [] => .ok st
    | .seq (s :: rest) =>
      (match exec fuel (.one s) st with
       | .ok st2 => exec fuel (.seq rest) st2
       | o => o)
    | .branches [] => .ok st
    | .branches ((c, body) :: rest) =>
      (match evalExpr c st.vars with
       | .ok (.BoolT true) => exec fuel (.seq body) st
       | .ok (.BoolT false) => exec fuel (.branches rest) st
       | .ok _ => .err "If expression not bool type"
       | .err msg => .err msg
       | .panic => .panic)
    | .whileJ c body =>
      (match evalExpr c st.vars with
       | .ok (.BoolT true) =>
         (match exec fuel (.seq body) st with
          | .ok st2 => exec fuel (.whileJ c body) st2
          | o => o)
       | .ok (.BoolT false) => .ok st
       | .ok _ => exec fuel (.whileJ c body) st
       | .err msg => .err msg
       | .panic => .panic)
    | .untilJ c body =>
      (match evalExpr c st.vars with
       | .ok (.BoolT false) =>
         (match exec fuel (.seq body) st with
          | .ok st2 => exec fuel (.untilJ c body) st2
          | o => o)
       | .ok (.BoolT true) => .ok st
       | .ok _ => exec fuel (.untilJ c body) st
       | .err msg => .err msg
       | .panic => .panic)
    | .forJ name i stop body =>
      if i ≤ stop then
        match lookupVar st.vars name with
        | some _ =>
          (match exec fuel (.seq body)
              { st with vars := insertVar st.vars name (.IntT i) } with
           | .ok st2 => exec fuel (.forJ name (i + 1) stop body) st2
           | o => o)
        | none => .panic
      else .ok st

/-- Evaluation of a single statement (`Stmt::eval`). -/
def evalStmt (fuel : Nat) (s : Stmt) (st : EState) : EvalRes :=
  exec fuel (.one s) st

/-- Evaluation of a statement sequence in order (the `for stmt in stmts`
loops of `main` and of the statement bodies). -/
def evalStmts (fuel : Nat) (ss : List Stmt) (st : EState) : EvalRes :=
  exec fuel (.seq ss) st

/-- The list `[s, s+1, ..., s+n-1]`. -/
def rangeFrom : Int → Nat → List Int
  | _, 0 => []
  | s, n + 1 => s :: rangeFrom (s + 1) n

/-- The inclusive ascending integer range `s..=e` (empty when `e < s`),
the iteration space of the counting loop. -/
def rangeIncl (s e : Int) : List Int :=
  if e < s then [] else rangeFrom s ((e - s).toNat + 1)

theorem scanNum_length : ∀ (cs : List Char) (buf : String) (isFloat : Bool)
    (b : String) (fl : Bool) (rest : List Char),
    scanNum cs buf isFloat = .ok (b, fl, rest) → rest.length ≤ cs.length := by
  intro cs
  induction cs with
  | nil => intro buf isFloat b fl rest h; simp [scanNum] at h; simp [h.2.2]
  | cons c cs ih =>
    intro buf isFloat b fl rest h
    simp only [scanNum] at h
    by_cases hd : c.isDigit
    · simp [hd] at h
      exact Nat.le_succ_of_le (ih _ _ _ _ _ h)
    · by_cases hdot : c = '.'
      · by_cases hf : isFloat
        · simp [hd, hdot, hf] at h
        · simp [hd, hdot, hf] at h
          exact Nat.le_succ_of_le (ih _ _ _ _ _ h)
      · simp [hd, hdot] at h
        simp [h.2.2]

theorem scanStr_length : ∀ (cs : List Char) (buf : String),
    (scanStr cs buf).2.length ≤ cs.length := by
  intro cs
  induction cs with
  | nil => intro buf; simp [scanStr]
  | cons c cs ih =>
    intro buf
    simp only [scanStr]
    by_cases hq : c = '"'
    · simp [hq]
    · simp [hq]; exact Nat.le_succ_of_le (ih _)

theorem scanIdent_length : ∀ (cs : List Char) (buf : String),
    (scanIdent cs buf).2.length ≤ cs.length := by
  intro cs
  induction cs with
  | nil => intro buf; simp [scanIdent]
  | cons c cs ih =>
    intro buf
    simp only [scanIdent]
    by_cases ha : c.isAlpha
    · simp [ha]; exact Nat.le_succ_of_le (ih _)
    · by_cases hu : c = '_'
      · simp [ha, hu]; exact Nat.le_succ_of_le (ih _)
      · simp [ha, hu]

theorem consTok_ne_none {t : LexerToken} {r : LexRes} (h : r ≠ none) :
    consTok t r ≠ none := by
  match r with
  | none => exact absurd rfl h
  | some (.error e) => simp [consTok]
  | some (.ok ts) => simp [consTok]

/-- The out-of-fuel outcome is unreachable once the fuel exceeds the number
of remaining characters: the Rust loop consumes at least one character per
iteration. -/
theorem lexLoop_ne_none : ∀ (fuel : Nat) (cs : List Char),
    cs.length < fuel → lexLoop fuel cs ≠ none := by
  intro fuel
  induction fuel with
  | zero => intro cs h; omega
  | succ fuel ih =>
    intro cs h
    match cs with
    | [] => simp [lexLoop]
    | c :: cs =>
      simp only [lexLoop]
      simp only [List.length_cons, Nat.succ_lt_succ_iff] at h
      by_cases hws : c = ' ' ∨ c = '\n' ∨ c = '\t'
      · simp only [hws, if_true]; exact ih cs h
      · simp only [hws, if_false]
        by_cases hdig : c.isDigit
        · simp only [hdig, if_true]
          match hscan : scanNum cs ("".push c) false with
          | .error e => simp
          | .ok (buf, isFloat, rest) =>
            have hlen := scanNum_length _ _ _ _ _ _ hscan
            match isFloat with
            | true =>
              simp only [parseF64Lit]
              exact consTok_ne_none (ih rest (by omega))
            | false =>
              simp only
              match parseI64 buf with
              | some n => exact consTok_ne_none (ih rest (by omega))
              | none => simp
        · simp only [hdig, Bool.false_eq_true, if_false]
          by_cases hq : c = '"'
          · simp only [hq, if_true]
            match hstr : scanStr cs "" with
            | (buf, rest) =>
              have hlen := scanStr_length cs ""
              rw [hstr] at hlen; simp at hlen
              by_cases hre : rest.isEmpty
              · simp [hre]
              · simp only [hre, if_false]
                exact consTok_ne_none (ih rest (by omega))
          · simp only [hq, if_false]
            by_cases ha : c.isAlpha
            · simp only [ha, if_true]
              match hident : scanIdent cs ("".push c) with
              | (buf, rest) =>
                have hlen := scanIdent_length cs ("".push c)
                rw [hident] at hlen; simp at hlen
                match fromIdentifier (toLowerStr buf) with
                | some tok => exact consTok_ne_none (ih rest (by omega))
                | none =>
                  by_cases hu : buf.data.all (fun ch => ch.isUpper || ch = '_')
                  · simp only [hu, if_true]
                    exact consTok_ne_none (ih rest (by omega))
                  · simp [hu]
            · simp only [ha, Bool.false_eq_true, if_false]
              by_cases hp : isAsciiPunct c
              · simp only [hp, if_true]
                split
                all_goals try exact consTok_ne_none (ih _ h)
                all_goals try simp
                all_goals exact consTok_ne_none (ih _ (by simp at h; omega))
              · simp [hp]

theorem lookupVar_insertVar_self (vars : List (String × PscObject))
    (name : String) (v : PscObject) :
    lookupVar (insertVar vars name v) name = some v := by
  induction vars with
  | nil => simp [insertVar, lookupVar]
  | cons kv rest ih =>
    obtain ⟨k, w⟩ := kv
    by_cases hk : k = name
    · simp [insertVar, lookupVar, hk]
    · simp [insertVar, lookupVar, hk, ih]

theorem insertVar_insertVar (vars : List (String × PscObject))
    (name : String) (a b : PscObject) :
    insertVar (insertVar vars name a) name b = insertVar vars name b := by
  induction vars with
  | nil => simp [insertVar]
  | cons kv rest ih =>
    obtain ⟨k, w⟩ := kv
    by_cases hk : k = name
    · simp [insertVar, hk]
    · simp [insertVar, hk, ih]

theorem rangeIncl_cons {i e : Int} (h : i ≤ e) :
    rangeIncl i e = i :: rangeIncl (i + 1) e := by
  unfold rangeIncl
  rw [if_neg (by omega)]
  by_cases h2 : e < i + 1
  · rw [if_pos h2]
    have h3 : (e - i).toNat = 0 := by omega
    rw [h3]
    rfl
  · rw [if_neg h2]
    have h3 : (e - i).toNat = (e - (i + 1)).toNat + 1 := by omega
    rw [h3]
    rfl

/-- A pre-test loop whose condition evaluates to a non-boolean value makes
no progress: the `if let` of the While arm matches neither `true` nor
`false`, so the `loop` re-evaluates the same condition in the same state
forever.  In the fuel model every fuel amount is exhausted. -/
theorem exec_whileJ_nonbool (c : Expr) (body : List Stmt) :
    ∀ (fuel : Nat) (st : EState) (v : PscObject),
      evalExpr c st.vars = .ok v → (∀ b, v ≠ .BoolT b) →
      exec fuel (.whileJ c body) st = .timeout := by
  intro fuel
  induction fuel with
  | zero => intro st v h hb; rfl
  | succ fuel ih =>
    intro st v h hb
    cases v with
    | BoolT b => exact absurd rfl (hb b)
    | IntT x => simp only [exec, h]; exact ih st _ h hb
    | FloatT x => simp only [exec, h]; exact ih st _ h hb
    | StringT x => simp only [exec, h]; exact ih st _ h hb

/-- The divergence of `LOOP WHILE 1 ... END LOOP` specialised to an empty
body and any starting state. -/
theorem evalStmt_whileIntOne_timeout (fuel : Nat) (st : EState) :
    evalStmt fuel (.While (.IntLit 1) []) st = .timeout := by
  cases fuel with
  | zero => rfl
  | succ fuel =>
    show exec (fuel + 1) (.one (.While (.IntLit 1) [])) st = .timeout
    simp only [exec]
    exact exec_whileJ_nonbool _ _ fuel st (.IntT 1) rfl
      (fun b hb => PscObject.noConfusion hb)

/-- One run of the counting-loop iteration `forJ`, with the body
`OUTPUT <loop variable>`: with fuel `(e - i).toNat + 3` the loop prints
each value of `i..=e` in ascending order and leaves the variable bound to
`e`. -/
theorem exec_forJ_output (name : String) :
    ∀ (k : Nat) (i e : Int), i ≤ e → (e - i).toNat = k →
    ∀ (vars : List (String × PscObject)) (inp out : List String)
      (v0 : PscObject), lookupVar vars name = some v0 →
      exec (k + 3) (.forJ name i e [.Output (.Ident name)]) ⟨vars, inp, out⟩ =
        .ok ⟨insertVar vars name (.IntT e), inp,
             out ++ (rangeIncl i e).map (fun j => toString j)⟩ := by
  intro k
  induction k with
  | zero =>
    intro i e h1 h2 vars inp out v0 hv
    have he : i = e := by omega
    subst he
    simp only [exec, if_pos (le_refl i), hv, evalExpr,
      lookupVar_insertVar_self, render]
    rw [if_neg (by omega)]
    rw [rangeIncl_cons (le_refl i)]
    rw [show rangeIncl (i + 1) i = [] from by unfold rangeIncl; rw [if_pos (by omega)]]
    rfl
  | succ k ih =>
    intro i e h1 h2 vars inp out v0 hv
    have hlt : i < e := by omega
    have hstep : exec (k + 1 + 3) (.forJ name i e [.Output (.Ident name)])
        ⟨vars, inp, out⟩ =
        exec (k + 3) (.forJ name (i + 1) e [.Output (.Ident name)])
          ⟨insertVar vars name (.IntT i), inp, out ++ [toString i]⟩ := by
      simp only [exec, if_pos (le_of_lt hlt), hv, evalExpr,
        lookupVar_insertVar_self, render]
    rw [hstep]
    rw [ih (i + 1) e (by omega) (by omega)
      (insertVar vars name (.IntT i)) inp (out ++ [toString i]) (.IntT i)
      (lookupVar_insertVar_self vars name (.IntT i))]
    rw [insertVar_insertVar]
    rw [rangeIncl_cons (le_of_lt hlt)]
    simp

/-! ## The claims -/

/-- Claim C1, counterexample: the spec's example program, with `THEN` after
the `ELSE IF` condition, does not parse — `parse_stmt` consumes no `THEN`
after an else-if condition, so the branch loop hands the `THEN` token to
the statement parser, which rejects it with "Failed to parse stmt". -/
theorem claim_C1_counterexample :
    lex "IF X > 0 THEN OUTPUT \"pos\" ELSE IF X < 0 THEN OUTPUT \"neg\" ELSE OUTPUT \"zero\" END IF" =
      some (.ok [.Keyword .If, .Identifier "X", .Punctuation .GT, .IntLit 0,
        .Keyword .Then, .Keyword .Output, .StrLit "pos", .Keyword .Else,
        .Keyword .If, .Identifier "X", .Punctuation .LT, .IntLit 0,
        .Keyword .Then, .Keyword .Output, .StrLit "neg", .Keyword .Else,
        .Keyword .Output, .StrLit "zero", .Keyword .End, .Keyword .If]) ∧
    parseProgram 999 [.Keyword .If, .Identifier "X", .Punctuation .GT,
        .IntLit 0, .Keyword .Then, .Keyword .Output, .StrLit "pos",
        .Keyword .Else, .Keyword .If, .Identifier "X", .Punctuation .LT,
        .IntLit 0, .Keyword .Then, .Keyword .Output, .StrLit "neg",
        .Keyword .Else, .Keyword .Output, .StrLit "zero", .Keyword .End,
        .Keyword .If] =
      .err "Failed to parse stmt" :=
  ⟨rfl, rfl⟩

/-- Claim C1, amended: the same program written in the grammar the parser
accepts (no `THEN` after the `ELSE IF` condition) parses into a
three-branch conditional whose final branch has condition literal `true`;
with `X` bound to `Integer 0` it outputs exactly `zero`, and with `X`
bound to `Integer 5` it outputs exactly `pos`. -/
theorem claim_C1 :
    lex "IF X > 0 THEN OUTPUT \"pos\" ELSE IF X < 0 OUTPUT \"neg\" ELSE OUTPUT \"zero\" END IF" =
      some (.ok [.Keyword .If, .Identifier "X", .Punctuation .GT, .IntLit 0,
        .Keyword .Then, .Keyword .Output, .StrLit "pos", .Keyword .Else,
        .Keyword .If, .Identifier "X", .Punctuation .LT, .IntLit 0,
        .Keyword .Output, .StrLit "neg", .Keyword .Else, .Keyword .Output,
        .StrLit "zero", .Keyword .End, .Keyword .If]) ∧
    parseProgram 999 [.Keyword .If, .Identifier "X", .Punctuation .GT,
        .IntLit 0, .Keyword .Then, .Keyword .Output, .StrLit "pos",
        .Keyword .Else, .Keyword .If, .Identifier "X", .Punctuation .LT,
        .IntLit 0, .Keyword .Output, .StrLit "neg", .Keyword .Else,
        .Keyword .Output, .StrLit "zero", .Keyword .End, .Keyword .If] =
      .ok [.If [(.BinOp (.Ident "X") (.IntLit 0) .GT, [.Output (.StrLit "pos")]),
        (.BinOp (.Ident "X") (.IntLit 0) .LT, [.Output (.StrLit "neg")]),
        (.BoolLit true, [.Output (.StrLit "zero")])]] [] ∧
    evalStmts 99
      [.If [(.BinOp (.Ident "X") (.IntLit 0) .GT, [.Output (.StrLit "pos")]),
        (.BinOp (.Ident "X") (.IntLit 0) .LT, [.Output (.StrLit "neg")]),
        (.BoolLit true, [.Output (.StrLit "zero")])]]
      ⟨[("X", .IntT 0)], [], []⟩ = .ok ⟨[("X", .IntT 0)], [], ["zero"]⟩ ∧
    evalStmts 99
      [.If [(.BinOp (.Ident "X") (.IntLit 0) .GT, [.Output (.StrLit "pos")]),
        (.BinOp (.Ident "X") (.IntLit 0) .LT, [.Output (.StrLit "neg")]),
        (.BoolLit true, [.Output (.StrLit "zero")])]]
      ⟨[("X", .IntT 5)], [], []⟩ = .ok ⟨[("X", .IntT 5)], [], ["pos"]⟩ :=
  ⟨rfl, rfl, rfl, rfl⟩

/-- Claim C2, counterexample: `1 - 2 - 3` parses as `1 - (2 - 3)` — the
right-associated tree, not the left-associated `(1 - 2) - 3` the claim
states — and accordingly evaluates to `Integer 2`, not `Integer (-4)`
(which is what the left-associated tree evaluates to). -/
theorem claim_C2_counterexample :
    lex "1 - 2 - 3" = some (.ok [.IntLit 1, .Punctuation .Minus, .IntLit 2,
      .Punctuation .Minus, .IntLit 3]) ∧
    parseExpr 9 [.IntLit 1, .Punctuation .Minus, .IntLit 2,
        .Punctuation .Minus, .IntLit 3] =
      .ok (.BinOp (.IntLit 1) (.BinOp (.IntLit 2) (.IntLit 3) .Minus) .Minus) [] ∧
    Expr.BinOp (.IntLit 1) (.BinOp (.IntLit 2) (.IntLit 3) .Minus) .Minus ≠
      Expr.BinOp (.BinOp (.IntLit 1) (.IntLit 2) .Minus) (.IntLit 3) .Minus ∧
    evalExpr (.BinOp (.IntLit 1) (.BinOp (.IntLit 2) (.IntLit 3) .Minus) .Minus) [] =
      .ok (.IntT 2) ∧
    evalExpr (.BinOp (.BinOp (.IntLit 1) (.IntLit 2) .Minus) (.IntLit 3) .Minus) [] =
      .ok (.IntT (-4)) :=
  ⟨rfl, rfl, by decide, rfl, rfl⟩

/-- Claim C2, amended: for every pair of non-assignment operators of equal
precedence, the parser produces the RIGHT-associated tree: `parse_bin_op`
admits an operator whose precedence is greater than or equal to the current
minimum into the recursive right-hand-side parse, so an equal-precedence
chain nests to the right. -/
theorem claim_C2 :
    ∀ (p q : Punctuation), p ≠ .Assign → q ≠ .Assign →
      p.precedence = q.precedence →
      ∀ (a b c : Int),
        parseExpr 9 [.IntLit a, .Punctuation p, .IntLit b, .Punctuation q,
          .IntLit c] =
          .ok (.BinOp (.IntLit a) (.BinOp (.IntLit b) (.IntLit c) q) p) [] := by
  intro p q hp hq hpq
  cases p <;> cases q <;>
    first
      | (intro a b c; rfl)
      | exact absurd rfl hp
      | exact absurd rfl hq
      | exact absurd hpq (by decide)

/-- Claim C2 witness: the amended claim at `-`/`-` and `1 - 2 - 3`. -/
theorem claim_C2_witness :
    Punctuation.Minus ≠ Punctuation.Assign ∧
    Punctuation.Minus.precedence = Punctuation.Minus.precedence ∧
    parseExpr 9 [.IntLit 1, .Punctuation .Minus, .IntLit 2,
        .Punctuation .Minus, .IntLit 3] =
      .ok (.BinOp (.IntLit 1) (.BinOp (.IntLit 2) (.IntLit 3) .Minus) .Minus) [] :=
  ⟨by decide, rfl, claim_C2 .Minus .Minus (by decide) (by decide) rfl 1 2 3⟩

/-- Claim C3: the parser does not always return statements or a structural
error — an identifier not followed by `=` reaches the `unreachable!()` at
the end of `parse_stmt` and aborts, and `LOOP` followed by a token that is
neither `WHILE`, `UNTIL` nor an identifier reaches the `todo!()` and
aborts.  Both panics are shown on concrete token sequences, at statement
level and at top level. -/
theorem claim_C3 :
    parseStmt 50 [.Identifier "X", .IntLit 1] = .panic ∧
    parseStmt 50 [.Keyword .Loop, .IntLit 5] = .panic ∧
    parseProgram 999 [.Identifier "X", .IntLit 1] = .panic ∧
    parseStmt 50 [.Identifier "X"] = .panic ∧
    parseStmt 50 [.Keyword .Loop] = .panic :=
  ⟨rfl, rfl, rfl, rfl, rfl⟩

/-- Claim C4: the scanning loops take the terminating character with
`it.next()` and drop it, so an identifier or numeric literal immediately
followed by an operator character swallows that operator: `X=1` lexes to
`[Identifier X, IntLit 1]` (not to `[Identifier X, Assign, IntLit 1]` as
the claim states), and `1+2` lexes to `[IntLit 1, IntLit 2]`. -/
theorem claim_C4 :
    lex "X=1" = some (.ok [.Identifier "X", .IntLit 1]) ∧
    [LexerToken.Identifier "X", .IntLit 1] ≠
      [LexerToken.Identifier "X", .Punctuation .Assign, .IntLit 1] ∧
    lex "1+2" = some (.ok [.IntLit 1, .IntLit 2]) :=
  ⟨rfl, by decide, rfl⟩

/-- Claim C5: the lexer's post-loop check `if let None = it.peek()` fires
whenever the stream is exhausted after the string literal, not only when no
closing quote was found — so a string literal whose closing quote is the
last character of the source is (wrongly) rejected with "Failed to parse
string literal", while the same literal followed by any character (here a
space) lexes fine, and a genuinely unterminated literal is also rejected. -/
theorem claim_C5 :
    lex "\"hi\"" = some (.error "Failed to parse string literal") ∧
    lex "\"hi\" " = some (.ok [.StrLit "hi"]) ∧
    lex "\"hi" = some (.error "Failed to parse string literal") :=
  ⟨rfl, rfl, rfl⟩

/-- Claim C6, counterexample: an Input statement at end of input does NOT
fail — `read_line` at end of input returns `Ok(0)` leaving the buffer
empty, the empty line falls through every numeric and boolean parse, and
the identifier is bound to `Text ""`. -/
theorem claim_C6_counterexample :
    evalStmt 1 (.Input "X") ⟨[], [], []⟩ = .ok ⟨[("X", .StringT "")], [], []⟩ :=
  rfl

/-- Claim C6, amended: for every environment, output log and identifier,
evaluating an Input statement with standard input exhausted succeeds and
binds the identifier to `Text ""` (the raw empty buffer); no runtime error
is raised. -/
theorem claim_C6 :
    ∀ (fuel : Nat) (name : String) (vars : List (String × PscObject))
      (out : List String),
      evalStmt (fuel + 1) (.Input name) ⟨vars, [], out⟩ =
        .ok ⟨insertVar vars name (.StringT ""), [], out⟩ := by
  intro fuel name vars out
  rfl

/-- Claim C7, counterexample: `LOOP WHILE 1 END LOOP` parses to a pre-test
loop whose condition is the non-boolean `Integer 1`, and its evaluation
never completes: no amount of fuel makes it yield anything but the
out-of-fuel outcome (in the fuel model, termination is the existence of a
fuel amount whose result is not `timeout`). -/
theorem claim_C7_counterexample :
    lex "LOOP WHILE 1 END LOOP" = some (.ok [.Keyword .Loop, .Keyword .While,
      .IntLit 1, .Keyword .End, .Keyword .Loop]) ∧
    parseProgram 999 [.Keyword .Loop, .Keyword .While, .IntLit 1,
      .Keyword .End, .Keyword .Loop] = .ok [.While (.IntLit 1) []] [] ∧
    ¬∃ fuel, evalStmt fuel (.While (.IntLit 1) []) ⟨[], [], []⟩ ≠ .timeout := by
  refine ⟨rfl, rfl, ?_⟩
  rintro ⟨fuel, hf⟩
  exact hf (evalStmt_whileIntOne_timeout fuel _)

/-- Claim C7, amended: when a PreTestLoop's condition evaluates to a
non-boolean value the evaluator does not execute the body for that
iteration and raises no error, but it re-evaluates the condition in the
unchanged state, so the loop never terminates: for every fuel amount the
evaluation is still unfinished. -/
theorem claim_C7 :
    ∀ (fuel : Nat) (c : Expr) (body : List Stmt) (st : EState)
      (v : PscObject),
      evalExpr c st.vars = .ok v → (∀ b, v ≠ .BoolT b) →
      evalStmt fuel (.While c body) st = .timeout := by
  intro fuel c body st v h hb
  cases fuel with
  | zero => rfl
  | succ fuel =>
    show exec (fuel + 1) (.one (.While c body)) st = .timeout
    simp only [exec]
    exact exec_whileJ_nonbool c body fuel st v h hb

/-- Claim C7 witness: the amended claim at condition `1`, empty body,
empty state, fuel 7. -/
theorem claim_C7_witness :
    evalExpr (.IntLit 1) (EState.mk [] [] []).vars = .ok (.IntT 1) ∧
    evalStmt 7 (.While (.IntLit 1) []) ⟨[], [], []⟩ = .timeout :=
  ⟨rfl, claim_C7 7 (.IntLit 1) [] ⟨[], [], []⟩ (.IntT 1) rfl (by decide)⟩

/-- Claim C8: the program `LOOP I FROM 1 TO 3 OUTPUT I END LOOP` lexes and
parses to a counting loop and outputs `1`, `2`, `3` on successive lines,
leaving `I` bound to `Integer 3`; and in general, for integer start `s`
and stop `e` with `s ≤ e`, the counting loop (observed through the body
`OUTPUT <loop variable>`) evaluates the start and stop expressions once,
rebinds the loop variable to each value of the inclusive range `s..=e` in
ascending order before each body execution (each rebinding is what the
body prints), and leaves the variable bound to the final value `e`. -/
theorem claim_C8 :
    (lex "LOOP I FROM 1 TO 3 OUTPUT I END LOOP" =
      some (.ok [.Keyword .Loop, .Identifier "I", .Keyword .From, .IntLit 1,
        .Keyword .To, .IntLit 3, .Keyword .Output, .Identifier "I",
        .Keyword .End, .Keyword .Loop]) ∧
     parseProgram 999 [.Keyword .Loop, .Identifier "I", .Keyword .From,
        .IntLit 1, .Keyword .To, .IntLit 3, .Keyword .Output,
        .Identifier "I", .Keyword .End, .Keyword .Loop] =
      .ok [.For "I" (.IntLit 1) (.IntLit 3) [.Output (.Ident "I")]] [] ∧
     evalStmts 99 [.For "I" (.IntLit 1) (.IntLit 3) [.Output (.Ident "I")]]
        ⟨[], [], []⟩ =
      .ok ⟨[("I", .IntT 3)], [], ["1", "2", "3"]⟩) ∧
    ∀ (name : String) (startE stopE : Expr) (s e : Int)
      (vars : List (String × PscObject)) (inp out : List String),
      evalExpr startE vars = .ok (.IntT s) →
      evalExpr stopE vars = .ok (.IntT e) → s ≤ e →
      evalStmt ((e - s).toNat + 4)
          (.For name startE stopE [.Output (.Ident name)]) ⟨vars, inp, out⟩ =
        .ok ⟨insertVar vars name (.IntT e), inp,
             out ++ (rangeIncl s e).map (fun j => toString j)⟩ := by
  refine ⟨⟨rfl, rfl, rfl⟩, ?_⟩
  intro name startE stopE s e vars inp out h1 h2 h3
  show exec ((e - s).toNat + 3 + 1)
      (.one (.For name startE stopE [.Output (.Ident name)]))
      ⟨vars, inp, out⟩ = _
  simp only [exec, h1, h2]
  have h4 := exec_forJ_output name ((e - s).toNat) s e h3 rfl
    (insertVar vars name (.IntT 0)) inp out (.IntT 0)
    (lookupVar_insertVar_self vars name (.IntT 0))
  rw [insertVar_insertVar] at h4
  exact h4

/-- Claim C8 witness: the general statement at `LOOP J FROM 4 TO 5`,
starting from the empty environment. -/
theorem claim_C8_witness :
    (4 : Int) ≤ 5 ∧
    evalStmt 5 (.For "J" (.IntLit 4) (.IntLit 5) [.Output (.Ident "J")])
        ⟨[], [], []⟩ =
      .ok ⟨[("J", .IntT 5)], [], ["4", "5"]⟩ :=
  ⟨by decide, claim_C8.2 "J" (.IntLit 4) (.IntLit 5) 4 5 [] [] [] rfl rfl
    (by decide)⟩

/-- Claim C9: for all `i64`-representable integers `a`, `b` with `b ≠ 0`,
evaluating `a / b` yields `Float(float(a) / float(b))` — true division,
always a float — and evaluating `a div b` yields
`Float(floor(float(a) / float(b)))`. -/
theorem claim_C9 :
    ∀ (a b : Int) (vars : List (String × PscObject)),
      -(2 ^ 63) ≤ a → a < 2 ^ 63 → -(2 ^ 63) ≤ b → b < 2 ^ 63 → b ≠ 0 →
      evalExpr (.BinOp (.IntLit a) (.IntLit b) .Div) vars =
        .ok (.FloatT (.div (.ofInt a) (.ofInt b))) ∧
      evalExpr (.BinOp (.IntLit a) (.IntLit b) .FloorDiv) vars =
        .ok (.FloatT (.floor (.div (.ofInt a) (.ofInt b)))) := by
  intro a b vars h1 h2 h3 h4 h5
  exact ⟨rfl, rfl⟩

/-- Claim C9 witness: the claim at `a = 7`, `b = 2`. -/
theorem claim_C9_witness :
    (2 : Int) ≠ 0 ∧
    (evalExpr (.BinOp (.IntLit 7) (.IntLit 2) .Div) [] =
        .ok (.FloatT (.div (.ofInt 7) (.ofInt 2))) ∧
     evalExpr (.BinOp (.IntLit 7) (.IntLit 2) .FloorDiv) [] =
        .ok (.FloatT (.floor (.div (.ofInt 7) (.ofInt 2))))) :=
  ⟨by decide, claim_C9 7 2 [] (by decide) (by decide) (by decide) (by decide)
    (by decide)⟩

/-- Claim C10: the counting loop inserts `Integer 0` for the loop variable
after evaluating the start and stop expressions but before inspecting
their kinds, so a loop that performs zero iterations — because the two
values are not both integers, or because the stop value is below the start
value — still overwrites any existing binding of the variable, completing
with the variable bound to `Integer 0` and nothing printed. -/
theorem claim_C10 :
    ∀ (fuel : Nat) (name : String) (startE stopE : Expr) (body : List Stmt)
      (vars : List (String × PscObject)) (inp out : List String)
      (vs ve : PscObject),
      evalExpr startE vars = .ok vs → evalExpr stopE vars = .ok ve →
      ((∀ s, vs ≠ .IntT s) ∨ (∀ e, ve ≠ .IntT e) ∨
        (∃ s e, vs = .IntT s ∧ ve = .IntT e ∧ e < s)) →
      evalStmt (fuel + 2) (.For name startE stopE body) ⟨vars, inp, out⟩ =
        .ok ⟨insertVar vars name (.IntT 0), inp, out⟩ := by
  intro fuel name startE stopE body vars inp out vs ve h1 h2 h3
  show exec (fuel + 1 + 1) (.one (.For name startE stopE body))
      ⟨vars, inp, out⟩ = _
  simp only [exec, h1, h2]
  rcases h3 with hA | hB | ⟨s, e, hs, he, hlt⟩
  · cases vs with
    | IntT s => exact absurd rfl (hA s)
    | FloatT x => rfl
    | StringT x => rfl
    | BoolT x => rfl
  · cases vs with
    | IntT s =>
      cases ve with
      | IntT e => exact absurd rfl (hB e)
      | FloatT x => rfl
      | StringT x => rfl
      | BoolT x => rfl
    | FloatT x => rfl
    | StringT x => rfl
    | BoolT x => rfl
  · subst hs
    subst he
    show exec (fuel + 1) (.forJ name s e body)
        ⟨insertVar vars name (.IntT 0), inp, out⟩ = _
    simp only [exec]
    rw [if_neg (by omega)]

/-- Claim C10 witness: `LOOP K FROM 5 TO 3` (an empty range) leaves `K`
bound to `Integer 0`. -/
theorem claim_C10_witness :
    evalExpr (.IntLit 5) [] = .ok (.IntT 5) ∧
    evalStmt 3 (.For "K" (.IntLit 5) (.IntLit 3) []) ⟨[], [], []⟩ =
      .ok ⟨[("K", .IntT 0)], [], []⟩ :=
  ⟨rfl, claim_C10 1 "K" (.IntLit 5) (.IntLit 3) [] [] [] [] (.IntT 5)
    (.IntT 3) rfl rfl (.inr (.inr ⟨5, 3, rfl, rfl, by decide⟩))⟩

end Psc
